import Mathlib

set_option autoImplicit false

/-!
Verification of the ROHC compressor core against its specification.

This file gives a shallow embedding of the relevant functions of
src/comp/c_ip.c and src/comp/rohc_comp.c and proves properties about them.
Machine integers are modelled as Nat with explicit reductions modulo 2^w
wherever the C code masks or truncates; byte buffers are lists of Nat
(each entry one byte); fallible functions return an explicit status.
-/

/-- Subset of the rohc_packet_t enumeration used by the IP-only profile
decision functions. -/
inductive rohc_packet_t where
  | ROHC_PACKET_IR
  | ROHC_PACKET_IR_DYN
  | ROHC_PACKET_UO_0
  | ROHC_PACKET_UO_1
  | ROHC_PACKET_UOR_2
  deriving DecidableEq, Repr

/-- IP version discriminator (values of the ip_version enumeration that the
IP-only profile distinguishes: the code only ever compares against IPV4). -/
inductive ip_version where
  | IPV4
  | IPV6
  deriving DecidableEq, Repr

/-- Per-IP-header compression flags kept in the RFC 3095 context
(struct ip_header_info): the IP version and, for IPv4, the stability
counters info.v4.sid_count / rnd_count / nbo_count, flattened here. -/
structure ip_header_info where
  version : ip_version
  sid_count : Nat
  rnd_count : Nat
  nbo_count : Nat
  deriving DecidableEq, Repr

/-- Per-packet temporary variables of the RFC 3095 context (the tmp field):
whether a static field changed, how many dynamic fields changed, and the
W-LSB feasibility flags for the sequence number. send_static is only ever
used for its truthiness by c_ip.c, so it is modelled as Bool. -/
structure rfc3095_tmp_state where
  send_static : Bool
  send_dynamic : Nat
  sn_4bits_possible : Bool
  sn_5bits_possible : Bool
  sn_13bits_possible : Bool
  deriving DecidableEq, Repr

/-- The part of struct rohc_comp_rfc3095_ctxt read by the IP-only profile
functions of c_ip.c. The last three Bool fields are modelled from the spec:
the helper functions no_outer_ip_id_bits_required,
is_outer_ip_id_6bits_possible and no_inner_ip_id_bits_required are declared
in the RFC 3095 engine which is not under src/, so their results on the
current context are carried as fields. Per the spec, the first and third
hold when 0 bits are required for the corresponding IP-ID under
offset-IP-ID encoding, and the second holds when the outer header is IPv4
with at most 6 IP-ID bits required. -/
structure rohc_comp_rfc3095_ctxt where
  sn : Nat
  ip_hdr_nr : Nat
  outer_ip_flags : ip_header_info
  inner_ip_flags : ip_header_info
  tmp : rfc3095_tmp_state
  no_outer_ip_id_bits_required : Bool
  is_outer_ip_id_6bits_possible : Bool
  no_inner_ip_id_bits_required : Bool
  deriving DecidableEq, Repr

/-- Embedding of c_ip_decide_FO_packet (c_ip.c, lines 107-162): decide which
packet to send in First Order state. -/
def c_ip_decide_FO_packet (ctxt : rohc_comp_rfc3095_ctxt)
    (oa_repetitions_nr : Nat) : rohc_packet_t :=
  if (ctxt.outer_ip_flags.version = ip_version.IPV4 ∧
      ctxt.outer_ip_flags.sid_count < oa_repetitions_nr) ∨
     (ctxt.ip_hdr_nr > 1 ∧ ctxt.inner_ip_flags.version = ip_version.IPV4 ∧
      ctxt.inner_ip_flags.sid_count < oa_repetitions_nr) then
    rohc_packet_t.ROHC_PACKET_IR_DYN
  else if ctxt.tmp.send_static = true ∧
      (ctxt.tmp.sn_5bits_possible = true ∨ ctxt.tmp.sn_13bits_possible = true) then
    rohc_packet_t.ROHC_PACKET_UOR_2
  else if ctxt.ip_hdr_nr = 1 ∧ ctxt.tmp.send_dynamic > 2 then
    rohc_packet_t.ROHC_PACKET_IR_DYN
  else if ctxt.ip_hdr_nr > 1 ∧ ctxt.tmp.send_dynamic > 4 then
    rohc_packet_t.ROHC_PACKET_IR_DYN
  else if ctxt.tmp.sn_5bits_possible = true ∨ ctxt.tmp.sn_13bits_possible = true then
    rohc_packet_t.ROHC_PACKET_UOR_2
  else
    rohc_packet_t.ROHC_PACKET_IR_DYN

/-- Embedding of c_ip_decide_SO_packet (c_ip.c, lines 177-273): decide which
packet to send in Second Order state. The asserts on the stability counters
do not influence the returned value and are omitted; the oa_repetitions_nr
argument is kept to mirror the source, which reads it only for the asserts. -/
def c_ip_decide_SO_packet (ctxt : rohc_comp_rfc3095_ctxt)
    (oa_repetitions_nr : Nat) : rohc_packet_t :=
  let _ := oa_repetitions_nr
  if ctxt.ip_hdr_nr = 1 then
    if ctxt.tmp.sn_4bits_possible = true ∧
        ctxt.no_outer_ip_id_bits_required = true then
      rohc_packet_t.ROHC_PACKET_UO_0
    else if ctxt.tmp.sn_5bits_possible = true ∧
        ctxt.is_outer_ip_id_6bits_possible = true then
      rohc_packet_t.ROHC_PACKET_UO_1
    else if ctxt.tmp.sn_5bits_possible = true ∨ ctxt.tmp.sn_13bits_possible = true then
      rohc_packet_t.ROHC_PACKET_UOR_2
    else
      rohc_packet_t.ROHC_PACKET_IR_DYN
  else
    if ctxt.tmp.sn_4bits_possible = true ∧
        ctxt.no_outer_ip_id_bits_required = true ∧
        ctxt.no_inner_ip_id_bits_required = true then
      rohc_packet_t.ROHC_PACKET_UO_0
    else if ctxt.tmp.sn_5bits_possible = true ∧
        ctxt.is_outer_ip_id_6bits_possible = true ∧
        ctxt.no_inner_ip_id_bits_required = true then
      rohc_packet_t.ROHC_PACKET_UO_1
    else if ctxt.tmp.sn_5bits_possible = true ∨ ctxt.tmp.sn_13bits_possible = true then
      rohc_packet_t.ROHC_PACKET_UOR_2
    else
      rohc_packet_t.ROHC_PACKET_IR_DYN

/-- Embedding of c_ip_get_next_sn (c_ip.c, lines 285-304): the SN for the
next packet of an IP-only context. -/
def c_ip_get_next_sn (ctxt : rohc_comp_rfc3095_ctxt) : Nat :=
  if ctxt.sn = 0xffff then 0 else ctxt.sn + 1

/-- Embedding of c_ip_code_ir_remainder (c_ip.c, lines 328-354): write the
2-byte SN (after masking to 16 bits and conversion to network byte order)
at offset counter of the destination buffer; fail with -1 when the two
bytes do not fit within dest_max_len. Returns the status together with the
resulting buffer. -/
def c_ip_code_ir_remainder (ctxt : rohc_comp_rfc3095_ctxt) (dest : List Nat)
    (dest_max_len counter : Nat) : Int × List Nat :=
  if counter + 2 > dest_max_len then
    (-1, dest)
  else
    let sn := ctxt.sn % 65536
    (((counter : Int) + 2),
     (dest.set counter (sn / 256)).set (counter + 1) (sn % 256))

/-- Concrete FO-state context used by the witness of claim C1. -/
def ctxtC1 : rohc_comp_rfc3095_ctxt :=
  { sn := 0, ip_hdr_nr := 1,
    outer_ip_flags := ⟨ip_version.IPV4, 3, 3, 3⟩,
    inner_ip_flags := ⟨ip_version.IPV4, 3, 3, 3⟩,
    tmp := { send_static := false, send_dynamic := 0,
             sn_4bits_possible := true, sn_5bits_possible := true,
             sn_13bits_possible := true },
    no_outer_ip_id_bits_required := true,
    is_outer_ip_id_6bits_possible := true,
    no_inner_ip_id_bits_required := true }

/-- C1: in FO state the IP-only profile returns IR-DYN when any IPv4 header
(outer, or inner when two headers are present) has a SID counter below
oa_repetitions_nr; otherwise UOR-2 when a static field changed and the SN
fits in at most 13 bits; otherwise IR-DYN when one IP header with more than
2 changed dynamic fields, or two IP headers with more than 4; otherwise
UOR-2 when the SN fits in at most 13 bits; otherwise IR-DYN. Only IR-DYN
and UOR-2 are ever returned. The hypothesis states that 5-bit W-LSB
feasibility implies 13-bit feasibility, which holds for the LSB
interpretation intervals of the spec (fixed p per field, larger k gives a
superset interval). -/
theorem c_ip_decide_FO_packet_spec (ctxt : rohc_comp_rfc3095_ctxt) (oa : Nat)
    (h513 : ctxt.tmp.sn_5bits_possible = true → ctxt.tmp.sn_13bits_possible = true) :
    c_ip_decide_FO_packet ctxt oa =
      (if (ctxt.outer_ip_flags.version = ip_version.IPV4 ∧
           ctxt.outer_ip_flags.sid_count < oa) ∨
          (ctxt.ip_hdr_nr > 1 ∧ ctxt.inner_ip_flags.version = ip_version.IPV4 ∧
           ctxt.inner_ip_flags.sid_count < oa) then
         rohc_packet_t.ROHC_PACKET_IR_DYN
       else if ctxt.tmp.send_static = true ∧ ctxt.tmp.sn_13bits_possible = true then
         rohc_packet_t.ROHC_PACKET_UOR_2
       else if (ctxt.ip_hdr_nr = 1 ∧ ctxt.tmp.send_dynamic > 2) ∨
               (ctxt.ip_hdr_nr > 1 ∧ ctxt.tmp.send_dynamic > 4) then
         rohc_packet_t.ROHC_PACKET_IR_DYN
       else if ctxt.tmp.sn_13bits_possible = true then
         rohc_packet_t.ROHC_PACKET_UOR_2
       else
         rohc_packet_t.ROHC_PACKET_IR_DYN) ∧
    (c_ip_decide_FO_packet ctxt oa = rohc_packet_t.ROHC_PACKET_IR_DYN ∨
     c_ip_decide_FO_packet ctxt oa = rohc_packet_t.ROHC_PACKET_UOR_2) := by
  unfold c_ip_decide_FO_packet
  constructor
  · split_ifs <;> simp_all <;> omega
  · split_ifs <;> simp

/-- Witness for C1: the FO decision applied to a concrete context. -/
theorem c_ip_decide_FO_packet_spec_witness :
    c_ip_decide_FO_packet ctxtC1 3 = rohc_packet_t.ROHC_PACKET_IR_DYN ∨
    c_ip_decide_FO_packet ctxtC1 3 = rohc_packet_t.ROHC_PACKET_UOR_2 :=
  (c_ip_decide_FO_packet_spec ctxtC1 3 (by decide)).2

/-- Concrete SO-state context used by the witness of claim C2. -/
def ctxtC2 : rohc_comp_rfc3095_ctxt :=
  { sn := 42, ip_hdr_nr := 2,
    outer_ip_flags := ⟨ip_version.IPV4, 3, 3, 3⟩,
    inner_ip_flags := ⟨ip_version.IPV6, 3, 3, 3⟩,
    tmp := { send_static := false, send_dynamic := 0,
             sn_4bits_possible := true, sn_5bits_possible := true,
             sn_13bits_possible := true },
    no_outer_ip_id_bits_required := true,
    is_outer_ip_id_6bits_possible := true,
    no_inner_ip_id_bits_required := false }

/-- C2: in SO state the IP-only profile returns UO-0 when the SN fits in 4
bits, no outer IP-ID bits are required and (single IP header, or no inner
IP-ID bits required); otherwise UO-1 when the SN fits in 5 bits, the outer
header is IPv4 with at most 6 IP-ID bits required, and (single IP header,
or no inner IP-ID bits required); otherwise UOR-2 when the SN fits in at
most 13 bits; otherwise IR-DYN; and nothing else. Hypothesis as in C1
(W-LSB feasibility is monotone in the bit width). -/
theorem c_ip_decide_SO_packet_spec (ctxt : rohc_comp_rfc3095_ctxt) (oa : Nat)
    (h513 : ctxt.tmp.sn_5bits_possible = true → ctxt.tmp.sn_13bits_possible = true) :
    c_ip_decide_SO_packet ctxt oa =
      (if ctxt.tmp.sn_4bits_possible = true ∧
          ctxt.no_outer_ip_id_bits_required = true ∧
          (ctxt.ip_hdr_nr = 1 ∨ ctxt.no_inner_ip_id_bits_required = true) then
         rohc_packet_t.ROHC_PACKET_UO_0
       else if ctxt.tmp.sn_5bits_possible = true ∧
          ctxt.is_outer_ip_id_6bits_possible = true ∧
          (ctxt.ip_hdr_nr = 1 ∨ ctxt.no_inner_ip_id_bits_required = true) then
         rohc_packet_t.ROHC_PACKET_UO_1
       else if ctxt.tmp.sn_13bits_possible = true then
         rohc_packet_t.ROHC_PACKET_UOR_2
       else
         rohc_packet_t.ROHC_PACKET_IR_DYN) ∧
    (c_ip_decide_SO_packet ctxt oa = rohc_packet_t.ROHC_PACKET_UO_0 ∨
     c_ip_decide_SO_packet ctxt oa = rohc_packet_t.ROHC_PACKET_UO_1 ∨
     c_ip_decide_SO_packet ctxt oa = rohc_packet_t.ROHC_PACKET_UOR_2 ∨
     c_ip_decide_SO_packet ctxt oa = rohc_packet_t.ROHC_PACKET_IR_DYN) := by
  unfold c_ip_decide_SO_packet
  constructor
  · split_ifs <;> simp_all <;> omega
  · split_ifs <;> simp

/-- Witness for C2: the SO decision applied to a concrete context. -/
theorem c_ip_decide_SO_packet_spec_witness :
    c_ip_decide_SO_packet ctxtC2 3 = rohc_packet_t.ROHC_PACKET_UO_0 ∨
    c_ip_decide_SO_packet ctxtC2 3 = rohc_packet_t.ROHC_PACKET_UO_1 ∨
    c_ip_decide_SO_packet ctxtC2 3 = rohc_packet_t.ROHC_PACKET_UOR_2 ∨
    c_ip_decide_SO_packet ctxtC2 3 = rohc_packet_t.ROHC_PACKET_IR_DYN :=
  (c_ip_decide_SO_packet_spec ctxtC2 3 (by decide)).2

/-- Concrete context used by the witness of claim C7. -/
def ctxtC7 : rohc_comp_rfc3095_ctxt := { ctxtC1 with sn := 43981 }

/-- C7: c_ip_code_ir_remainder writes the 16-bit SN in network byte order
(most significant byte first) at offsets counter and counter + 1 of the
output buffer and returns counter + 2 whenever counter + 2 does not exceed
dest_max_len, leaving every other byte unchanged; when counter + 2 exceeds
dest_max_len it returns -1 and leaves the buffer untouched. -/
theorem c_ip_code_ir_remainder_spec (ctxt : rohc_comp_rfc3095_ctxt)
    (dest : List Nat) (dest_max_len counter : Nat)
    (hlen : dest.length = dest_max_len) :
    (counter + 2 ≤ dest_max_len →
      (c_ip_code_ir_remainder ctxt dest dest_max_len counter).1 = (counter : Int) + 2 ∧
      (c_ip_code_ir_remainder ctxt dest dest_max_len counter).2.getD counter 0 =
        ctxt.sn % 65536 / 256 ∧
      (c_ip_code_ir_remainder ctxt dest dest_max_len counter).2.getD (counter + 1) 0 =
        ctxt.sn % 256 ∧
      (∀ i, i ≠ counter → i ≠ counter + 1 →
        (c_ip_code_ir_remainder ctxt dest dest_max_len counter).2.getD i 0 =
          dest.getD i 0) ∧
      (c_ip_code_ir_remainder ctxt dest dest_max_len counter).2.length = dest.length) ∧
    (counter + 2 > dest_max_len →
      (c_ip_code_ir_remainder ctxt dest dest_max_len counter).1 = -1 ∧
      (c_ip_code_ir_remainder ctxt dest dest_max_len counter).2 = dest) := by
  constructor
  · intro hfit
    have hc1 : counter < dest.length := by omega
    have hc2 : counter + 1 < dest.length := by omega
    have hnot : ¬ (counter + 2 > dest_max_len) := by omega
    unfold c_ip_code_ir_remainder
    rw [if_neg hnot]
    refine ⟨rfl, ?_, ?_, ?_, ?_⟩
    · have hc1s : counter < ((dest.set counter (ctxt.sn % 65536 / 256)).set
        (counter + 1) (ctxt.sn % 65536 % 256)).length := by simpa using hc1
      rw [List.getD_eq_getElem _ _ hc1s]
      rw [List.getElem_set_ne (by omega)]
      simp
    · have hc2s : counter + 1 < ((dest.set counter (ctxt.sn % 65536 / 256)).set
        (counter + 1) (ctxt.sn % 65536 % 256)).length := by simpa using hc2
      rw [List.getD_eq_getElem _ _ hc2s]
      simp [Nat.mod_mod_of_dvd _ (by norm_num : (256 : Nat) ∣ 65536)]
    · intro i hi1 hi2
      by_cases hil : i < dest.length
      · have hil2 : i < ((dest.set counter (ctxt.sn % 65536 / 256)).set
          (counter + 1) (ctxt.sn % 65536 % 256)).length := by simpa using hil
        rw [List.getD_eq_getElem _ _ hil2, List.getD_eq_getElem _ _ hil]
        rw [List.getElem_set_ne (by omega), List.getElem_set_ne (by omega)]
      · rw [List.getD_eq_default _ _ (by simpa using Nat.le_of_not_lt hil),
            List.getD_eq_default _ _ (Nat.le_of_not_lt hil)]
    · simp
  · intro hover
    unfold c_ip_code_ir_remainder
    rw [if_pos hover]
    exact ⟨rfl, rfl⟩

/-- Witness for C7: writing SN 0xABCD at offset 2 of a 4-byte buffer. -/
theorem c_ip_code_ir_remainder_spec_witness :
    (c_ip_code_ir_remainder ctxtC7 [0, 0, 0, 0] 4 2).1 = (2 : Int) + 2 ∧
    (c_ip_code_ir_remainder ctxtC7 [0, 0, 0, 0] 4 2).2.getD 2 0 =
      ctxtC7.sn % 65536 / 256 ∧
    (c_ip_code_ir_remainder ctxtC7 [0, 0, 0, 0] 4 2).2.getD (2 + 1) 0 =
      ctxtC7.sn % 256 ∧
    (∀ i, i ≠ 2 → i ≠ 2 + 1 →
      (c_ip_code_ir_remainder ctxtC7 [0, 0, 0, 0] 4 2).2.getD i 0 =
        ([0, 0, 0, 0] : List Nat).getD i 0) ∧
    (c_ip_code_ir_remainder ctxtC7 [0, 0, 0, 0] 4 2).2.length =
      ([0, 0, 0, 0] : List Nat).length :=
  (c_ip_code_ir_remainder_spec ctxtC7 [0, 0, 0, 0] 4 2 (by decide)).1 (by decide)

/-- Concrete context used by the witness of claim C10. -/
def ctxtC10 : rohc_comp_rfc3095_ctxt := { ctxtC1 with sn := 5 }

/-- C10: c_ip_get_next_sn returns 0 when the current SN is 0xffff and the
current SN plus one otherwise, so for a 16-bit SN the result is
(sn + 1) mod 2^16 and always fits in 16 bits. -/
theorem c_ip_get_next_sn_spec (ctxt : rohc_comp_rfc3095_ctxt)
    (hsn : ctxt.sn < 65536) :
    c_ip_get_next_sn ctxt = (ctxt.sn + 1) % 65536 ∧
    c_ip_get_next_sn ctxt < 65536 := by
  unfold c_ip_get_next_sn
  split_ifs with h
  · rw [h]
    exact ⟨by norm_num, by norm_num⟩
  · have hlt : ctxt.sn + 1 < 65536 := by omega
    exact ⟨(Nat.mod_eq_of_lt hlt).symm, hlt⟩

/-- Witness for C10: the next SN after 5. -/
theorem c_ip_get_next_sn_spec_witness :
    c_ip_get_next_sn ctxtC10 = (ctxtC10.sn + 1) % 65536 ∧
    c_ip_get_next_sn ctxtC10 < 65536 :=
  c_ip_get_next_sn_spec ctxtC10 (by decide)

/-- One slot of the piggy-back feedback ring (struct rohc_feedback_t of
rohc_comp.c): the length of the owned bytes, the locked flag, and the bytes
themselves. An empty slot has length 0 (the C code frees the data pointer
and resets the length). -/
structure rohc_feedback_slot where
  length : Nat
  is_locked : Bool
  data : List Nat
  deriving DecidableEq, Repr, Inhabited

/-- Feedback-ring portion of struct rohc_comp: the FEEDBACK_RING_SIZE slots
(kept as a list whose length is the ring size, which the C code never
changes) and the three ring indices. -/
@[ext]
structure rohc_feedback_ring where
  feedbacks : List rohc_feedback_slot
  feedbacks_first : Nat
  feedbacks_first_unlocked : Nat
  feedbacks_next : Nat
  deriving DecidableEq, Repr

/-- Read of comp->feedbacks[i]. -/
def slotAt (st : rohc_feedback_ring) (i : Nat) : rohc_feedback_slot :=
  st.feedbacks.getD i default

/-- Setting the is_locked flag of a slot to true. -/
def slotLock (s : rohc_feedback_slot) : rohc_feedback_slot :=
  { s with is_locked := true }

/-- Setting the is_locked flag of a slot to false. -/
def slotUnlock (s : rohc_feedback_slot) : rohc_feedback_slot :=
  { s with is_locked := false }

/-- Embedding of rohc_comp_piggyback_feedback (rohc_comp.c, lines
2796-2849): append one feedback to the ring. Returns the C result together
with the updated ring; on failure the ring is returned unchanged. The
malloc of the slot data is modelled as always succeeding. -/
def rohc_comp_piggyback_feedback (st : rohc_feedback_ring)
    (feedback : List Nat) : Bool × rohc_feedback_ring :=
  if feedback.length = 0 then
    (false, st)
  else if st.feedbacks_next = st.feedbacks_first ∧
      (slotAt st st.feedbacks_first).length ≠ 0 then
    (false, st)
  else
    (true,
     { st with
       feedbacks := st.feedbacks.set st.feedbacks_next
         { length := feedback.length, is_locked := false, data := feedback },
       feedbacks_next := (st.feedbacks_next + 1) % st.feedbacks.length })

/-- Embedding of rohc_feedback_get (rohc_comp.c, lines 3901-4007): retrieve
and lock one queued feedback. Returns the C return value (emitted length,
0 when nothing is available, -1 when the encoded feedback does not fit in
max), the emitted bytes, and the updated ring. The one- or two-byte header
is 0xf0 with the length in the low 3 bits, or 0xf0 followed by the length
(truncated to a byte, as the C assignment to a uint8 buffer does). -/
def rohc_feedback_get (st : rohc_feedback_ring) (max : Nat) :
    Int × List Nat × rohc_feedback_ring :=
  if st.feedbacks_first = st.feedbacks_next ∧
      (slotAt st st.feedbacks_first).length = 0 then
    (0, [], st)
  else if st.feedbacks_first_unlocked = st.feedbacks_next ∧
      (slotAt st st.feedbacks_first_unlocked).length = 0 then
    (0, [], st)
  else if st.feedbacks_first_unlocked = st.feedbacks_next ∧
      (slotAt st st.feedbacks_first_unlocked).is_locked = true then
    (0, [], st)
  else
    let feedback_length := (slotAt st st.feedbacks_first_unlocked).length
    let required_length := feedback_length + 1 + (if feedback_length < 8 then 0 else 1)
    if required_length > max then
      (-1, [], st)
    else
      let header : List Nat :=
        if feedback_length < 8 then [0xf0 ||| feedback_length]
        else [0xf0, feedback_length % 256]
      (((header.length + feedback_length : Nat) : Int),
       header ++ (slotAt st st.feedbacks_first_unlocked).data,
       { st with
         feedbacks := st.feedbacks.set st.feedbacks_first_unlocked
           (slotLock (slotAt st st.feedbacks_first_unlocked)),
         feedbacks_first_unlocked :=
           (st.feedbacks_first_unlocked + 1) % st.feedbacks.length })

/-- Loop of rohc_feedback_unlock (rohc_comp.c, lines 3462-3469): walk from
position i, clearing the locked flag, until an unlocked slot is reached.
The fuel argument is instantiated with the ring size: the C while-loop
terminates within that many iterations because every visited slot is
unlocked by the visit, so after ring-size steps the walk is back at an
already-cleared slot. -/
def rohc_feedback_unlock_loop :
    Nat → Nat → List rohc_feedback_slot → List rohc_feedback_slot
  | 0, _, slots => slots
  | fuel + 1, i, slots =>
    if (slots.getD i default).is_locked = true then
      rohc_feedback_unlock_loop fuel ((i + 1) % slots.length)
        (slots.set i (slotUnlock (slots.getD i default)))
    else
      slots

/-- Embedding of rohc_feedback_unlock (rohc_comp.c, lines 3445-3476):
unlock all feedbacks locked during the packet build and reset
feedbacks_first_unlocked to feedbacks_first. -/
def rohc_feedback_unlock (st : rohc_feedback_ring) : rohc_feedback_ring :=
  { st with
    feedbacks :=
      rohc_feedback_unlock_loop st.feedbacks.length st.feedbacks_first st.feedbacks,
    feedbacks_first_unlocked := st.feedbacks_first }

/-- Loop of rohc_feedback_remove_locked (rohc_comp.c, lines 3400-3410):
starting at feedbacks_first, destroy every locked feedback and advance
feedbacks_first. Fuel as in rohc_feedback_unlock_loop. -/
def rohc_feedback_remove_locked_loop : Nat → rohc_feedback_ring → rohc_feedback_ring
  | 0, st => st
  | fuel + 1, st =>
    if (slotAt st st.feedbacks_first).is_locked = true then
      rohc_feedback_remove_locked_loop fuel
        { st with
          feedbacks := st.feedbacks.set st.feedbacks_first default,
          feedbacks_first := (st.feedbacks_first + 1) % st.feedbacks.length }
    else
      st

/-- Embedding of rohc_feedback_remove_locked (rohc_comp.c, lines 3385-3421). -/
def rohc_feedback_remove_locked (st : rohc_feedback_ring) : rohc_feedback_ring :=
  rohc_feedback_remove_locked_loop st.feedbacks.length st

/-- Embedding of rohc_feedback_avail_bytes (rohc_comp.c, lines 3085-3125):
total encoded size of the defined, unlocked feedbacks (each counted with
its 1- or 2-byte header). -/
def rohc_feedback_avail_bytes (st : rohc_feedback_ring) : Nat :=
  (st.feedbacks.map (fun s =>
    if 0 < s.length ∧ s.is_locked = false then
      s.length + (if s.length < 8 then 1 else 2)
    else 0)).sum

/-- C4: for a valid compressor and a non-empty feedback,
rohc_comp_piggyback_feedback fails exactly when feedbacks_next equals
feedbacks_first and the slot at feedbacks_first has non-zero length; on
failure the ring (slots and all three indices) is unchanged; on success the
feedback bytes and their length are recorded in the slot at feedbacks_next
with the locked flag cleared, feedbacks_next advances by one modulo the
ring size, and the other indices are unchanged. -/
theorem rohc_comp_piggyback_feedback_spec (st : rohc_feedback_ring)
    (feedback : List Nat) (hfb : feedback ≠ []) :
    ((rohc_comp_piggyback_feedback st feedback).1 = false ↔
      (st.feedbacks_next = st.feedbacks_first ∧
       (slotAt st st.feedbacks_first).length ≠ 0)) ∧
    ((rohc_comp_piggyback_feedback st feedback).1 = false →
      (rohc_comp_piggyback_feedback st feedback).2 = st) ∧
    ((rohc_comp_piggyback_feedback st feedback).1 = true →
      (rohc_comp_piggyback_feedback st feedback).2.feedbacks =
        st.feedbacks.set st.feedbacks_next
          { length := feedback.length, is_locked := false, data := feedback } ∧
      (rohc_comp_piggyback_feedback st feedback).2.feedbacks_next =
        (st.feedbacks_next + 1) % st.feedbacks.length ∧
      (rohc_comp_piggyback_feedback st feedback).2.feedbacks_first =
        st.feedbacks_first ∧
      (rohc_comp_piggyback_feedback st feedback).2.feedbacks_first_unlocked =
        st.feedbacks_first_unlocked) := by
  have hlen : feedback.length ≠ 0 := by
    simpa using hfb
  unfold rohc_comp_piggyback_feedback
  rw [if_neg hlen]
  by_cases hfull : st.feedbacks_next = st.feedbacks_first ∧
      (slotAt st st.feedbacks_first).length ≠ 0
  · rw [if_pos hfull]
    exact ⟨by simpa using hfull, fun _ => rfl, by simp⟩
  · rw [if_neg hfull]
    exact ⟨by simpa using hfull, by simp, fun _ => ⟨rfl, rfl, rfl, rfl⟩⟩

/-- Concrete ring used by the witness of claim C4: two slots, one queued
feedback. -/
def ringC4 : rohc_feedback_ring :=
  { feedbacks := [⟨2, false, [7, 8]⟩, default],
    feedbacks_first := 0, feedbacks_first_unlocked := 0, feedbacks_next := 1 }

/-- Witness for C4: piggybacking one byte onto a concrete ring. -/
theorem rohc_comp_piggyback_feedback_spec_witness :
    ((rohc_comp_piggyback_feedback ringC4 [9]).1 = false ↔
      (ringC4.feedbacks_next = ringC4.feedbacks_first ∧
       (slotAt ringC4 ringC4.feedbacks_first).length ≠ 0)) ∧
    ((rohc_comp_piggyback_feedback ringC4 [9]).1 = false →
      (rohc_comp_piggyback_feedback ringC4 [9]).2 = ringC4) ∧
    ((rohc_comp_piggyback_feedback ringC4 [9]).1 = true →
      (rohc_comp_piggyback_feedback ringC4 [9]).2.feedbacks =
        ringC4.feedbacks.set ringC4.feedbacks_next
          { length := ([9] : List Nat).length, is_locked := false, data := [9] } ∧
      (rohc_comp_piggyback_feedback ringC4 [9]).2.feedbacks_next =
        (ringC4.feedbacks_next + 1) % ringC4.feedbacks.length ∧
      (rohc_comp_piggyback_feedback ringC4 [9]).2.feedbacks_first =
        ringC4.feedbacks_first ∧
      (rohc_comp_piggyback_feedback ringC4 [9]).2.feedbacks_first_unlocked =
        ringC4.feedbacks_first_unlocked) :=
  rohc_comp_piggyback_feedback_spec ringC4 [9] (by decide)

/-- Reading a list after an update at the same (in-range) index. -/
theorem slot_getD_set_eq (l : List rohc_feedback_slot) (i : Nat)
    (v : rohc_feedback_slot) (hi : i < l.length) :
    (l.set i v).getD i default = v := by
  rw [List.getD_eq_getElem _ _ (by simpa using hi)]
  simp

/-- Reading a list after an update at a different index. -/
theorem slot_getD_set_ne (l : List rohc_feedback_slot) (i j : Nat)
    (v : rohc_feedback_slot) (hij : i ≠ j) :
    (l.set i v).getD j default = l.getD j default := by
  by_cases hj : j < l.length
  · rw [List.getD_eq_getElem _ _ (by simpa using hj),
        List.getD_eq_getElem _ _ hj, List.getElem_set_ne hij]
  · rw [List.getD_eq_default _ _ (by simpa using Nat.le_of_not_lt hj),
        List.getD_eq_default _ _ (Nat.le_of_not_lt hj)]

/-- Locking twice is the same as locking once. -/
theorem slotLock_idem (s : rohc_feedback_slot) :
    slotLock (slotLock s) = slotLock s := rfl

/-- Unlocking an unlocked slot after locking it restores the slot. -/
theorem slot_unlock_lock (s : rohc_feedback_slot) (h : s.is_locked = false) :
    slotUnlock (slotLock s) = s := by
  cases s
  simp_all [slotLock, slotUnlock]

/-- Walking m positions around a ring of size n from a reduced index cannot
come back to the start when 0 < m < n. -/
theorem cyc_no_wrap (i m n : Nat) (hin : i < n) (h : (i + m) % n = i)
    (hm0 : 0 < m) (hmn : m < n) : False := by
  have h2 : (i + m) % n = i % n := by rw [h, Nat.mod_eq_of_lt hin]
  have h3 : n ∣ (i + m) - i := (Nat.modEq_iff_dvd' (by omega)).mp h2.symm
  have h4 : n ∣ m := by simpa using h3
  have := Nat.le_of_dvd hm0 h4
  omega

/-- Membership of index i in the cyclic run of k slots starting at
firstIdx, in a ring of size n. -/
def inCycRun (n firstIdx k i : Nat) : Prop :=
  ∃ j, j < k ∧ i = (firstIdx + j) % n

/-- The empty cyclic run has no members. -/
theorem inCycRun_zero (n firstIdx i : Nat) : ¬ inCycRun n firstIdx 0 i := by
  rintro ⟨j, hj, -⟩
  omega

/-- A run of at least n slots covers the whole ring. -/
theorem inCycRun_full (n firstIdx k i : Nat) (hk : n ≤ k) (hf : firstIdx < n)
    (hi : i < n) : inCycRun n firstIdx k i := by
  refine ⟨(i + n - firstIdx) % n, lt_of_lt_of_le (Nat.mod_lt _ (by omega)) hk, ?_⟩
  rw [Nat.add_mod_mod]
  have he : firstIdx + (i + n - firstIdx) = i + n := by omega
  rw [he, Nat.add_mod_right, Nat.mod_eq_of_lt hi]

/-- The slot one past a short run is not part of the run. -/
theorem inCycRun_boundary (n firstIdx k : Nat) (hk : k < n) :
    ¬ inCycRun n firstIdx k ((firstIdx + k) % n) := by
  rintro ⟨j, hj, he⟩
  have hin : (firstIdx + j) % n < n := Nat.mod_lt _ (by omega)
  have h2 : ((firstIdx + j) % n + (k - j)) % n = (firstIdx + j) % n := by
    rw [Nat.mod_add_mod]
    have e : firstIdx + j + (k - j) = firstIdx + k := by omega
    rw [e, ← he]
  exact cyc_no_wrap _ _ n hin h2 (by omega) (by omega)

/-- Extending a short run by one adds exactly the boundary slot. -/
theorem inCycRun_succ (n firstIdx k i : Nat)
    (hne : i ≠ (firstIdx + k) % n) :
    inCycRun n firstIdx (k + 1) i ↔ inCycRun n firstIdx k i := by
  constructor
  · rintro ⟨j, hj, he⟩
    rcases Nat.lt_or_ge j k with hjk | hjk
    · exact ⟨j, hjk, he⟩
    · have : j = k := by omega
      subst this
      exact absurd he hne
  · rintro ⟨j, hj, he⟩
    exact ⟨j, by omega, he⟩

/-- A run from i of length k + 1 is the slot i together with the run of
length k from the next ring position. -/
theorem inCycRun_shift (n i k j : Nat) (hne : j ≠ i) (hin : i < n) :
    inCycRun n i (k + 1) j ↔ inCycRun n ((i + 1) % n) k j := by
  constructor
  · rintro ⟨jj, hjj, he⟩
    cases jj with
    | zero =>
      rw [Nat.add_zero, Nat.mod_eq_of_lt hin] at he
      exact absurd he hne
    | succ jj =>
      refine ⟨jj, by omega, ?_⟩
      rw [Nat.mod_add_mod]
      rw [he]
      congr 1
      omega
  · rintro ⟨jj, hjj, he⟩
    refine ⟨jj + 1, by omega, ?_⟩
    rw [Nat.mod_add_mod] at he
    rw [he]
    congr 1
    omega

/-- Pointwise description of the slots of a drained ring: the slots of the
cyclic run starting at firstIdx are the base slots locked, the others are
the base slots unchanged. -/
def drain_pointwise (base slots : List rohc_feedback_slot)
    (firstIdx k : Nat) : Prop :=
  (∀ i, i < base.length → inCycRun base.length firstIdx k i →
    slots.getD i default = slotLock (base.getD i default)) ∧
  (∀ i, i < base.length → ¬ inCycRun base.length firstIdx k i →
    slots.getD i default = base.getD i default)

/-- Invariant relating the ring state after any sequence of
rohc_feedback_get calls to the all-unlocked starting state: lengths, data
and the first/next indices are unchanged, and the locked slots are exactly
a cyclic run of k slots starting at feedbacks_first, with
feedbacks_first_unlocked one past the run while the run is shorter than
the ring. -/
def drain_inv (st st2 : rohc_feedback_ring) (k : Nat) : Prop :=
  st2.feedbacks.length = st.feedbacks.length ∧
  st2.feedbacks_first = st.feedbacks_first ∧
  st2.feedbacks_next = st.feedbacks_next ∧
  st2.feedbacks_first_unlocked < st.feedbacks.length ∧
  k ≤ st.feedbacks.length ∧
  (st.feedbacks.length ≤ k ∨
    st2.feedbacks_first_unlocked =
      (st.feedbacks_first + k) % st.feedbacks.length) ∧
  drain_pointwise st.feedbacks st2.feedbacks st.feedbacks_first k

/-- State effect of rohc_feedback_get: either the ring is unchanged (no
feedback available, or the encoded feedback does not fit), or the slot at
feedbacks_first_unlocked is locked and the index advances by one. -/
theorem rohc_feedback_get_state (st : rohc_feedback_ring) (m : Nat) :
    (rohc_feedback_get st m).2.2 = st ∨
    (rohc_feedback_get st m).2.2 =
      { st with
        feedbacks := st.feedbacks.set st.feedbacks_first_unlocked
          (slotLock (slotAt st st.feedbacks_first_unlocked)),
        feedbacks_first_unlocked :=
          (st.feedbacks_first_unlocked + 1) % st.feedbacks.length } := by
  unfold rohc_feedback_get
  split_ifs <;> (try simp) <;> split_ifs <;> simp

/-- One rohc_feedback_get call preserves the drain invariant. -/
theorem drain_inv_step (st st2 : rohc_feedback_ring) (k m : Nat)
    (hf : st.feedbacks_first < st.feedbacks.length)
    (hinv : drain_inv st st2 k) :
    ∃ k2, drain_inv st (rohc_feedback_get st2 m).2.2 k2 := by
  rcases rohc_feedback_get_state st2 m with hcase | hcase
  · exact ⟨k, by rw [hcase]; exact hinv⟩
  · obtain ⟨hlen, hfirst, hnext, hfu, hkN, hside, hlocked, hfree⟩ := hinv
    have hN0 : 0 < st.feedbacks.length := by omega
    by_cases hfull : st.feedbacks.length ≤ k
    · -- the whole ring is already locked: locking again changes nothing
      refine ⟨k, ?_, ?_, ?_, ?_, hkN, Or.inl hfull, ?_, ?_⟩ <;> rw [hcase]
      · simpa using hlen
      · exact hfirst
      · exact hnext
      · simp only [hlen]
        exact Nat.mod_lt _ hN0
      · intro i hi hrun
        by_cases hie : st2.feedbacks_first_unlocked = i
        · subst hie
          rw [slot_getD_set_eq st2.feedbacks st2.feedbacks_first_unlocked _
            (by omega)]
          simp only [slotAt]
          rw [hlocked st2.feedbacks_first_unlocked (by omega)
            (inCycRun_full _ _ _ _ hfull hf (by omega))]
          exact slotLock_idem _
        · rw [slot_getD_set_ne _ _ _ _ hie]
          exact hlocked i hi hrun
      · intro i hi hrun
        exact absurd (inCycRun_full _ _ _ _ hfull hf hi) hrun
    · -- the run is shorter than the ring: one more slot gets locked
      have hkn : k < st.feedbacks.length := by omega
      have hfu_eq : st2.feedbacks_first_unlocked =
          (st.feedbacks_first + k) % st.feedbacks.length := by
        rcases hside with h | h
        · omega
        · exact h
      refine ⟨k + 1, ?_, ?_, ?_, ?_, by omega, Or.inr ?_, ?_, ?_⟩ <;> rw [hcase]
      · simpa using hlen
      · exact hfirst
      · exact hnext
      · simp only [hlen]
        exact Nat.mod_lt _ hN0
      · -- new first_unlocked is one past the extended run
        simp only [hlen, hfu_eq, Nat.mod_add_mod]
        congr 1
      · intro i hi hrun
        by_cases hie : st2.feedbacks_first_unlocked = i
        · subst hie
          rw [slot_getD_set_eq st2.feedbacks st2.feedbacks_first_unlocked _
            (by omega)]
          have hfree_i : ¬ inCycRun st.feedbacks.length st.feedbacks_first k
              st2.feedbacks_first_unlocked := by
            rw [hfu_eq]
            exact inCycRun_boundary _ _ _ hkn
          simp only [slotAt]
          rw [hfree st2.feedbacks_first_unlocked (by omega) hfree_i]
        · rw [slot_getD_set_ne _ _ _ _ hie]
          have hrun_k : inCycRun st.feedbacks.length st.feedbacks_first k i := by
            rw [← inCycRun_succ _ _ _ _ (by rw [← hfu_eq]; exact fun he => hie he.symm)]
            exact hrun
          exact hlocked i hi hrun_k
      · intro i hi hrun
        have hie : st2.feedbacks_first_unlocked ≠ i := by
          intro he
          apply hrun
          refine ⟨k, by omega, ?_⟩
          rw [← he, hfu_eq]
        rw [slot_getD_set_ne _ _ _ _ hie]
        have hrun_k : ¬ inCycRun st.feedbacks.length st.feedbacks_first k i := by
          intro hr
          apply hrun
          rcases hr with ⟨j, hj, he⟩
          exact ⟨j, by omega, he⟩
        exact hfree i hi hrun_k

/-- Any sequence of rohc_feedback_get calls preserves the drain invariant. -/
theorem drain_inv_foldl (st : rohc_feedback_ring) (maxs : List Nat)
    (hf : st.feedbacks_first < st.feedbacks.length) :
    ∀ st2, (∃ k, drain_inv st st2 k) →
      ∃ k, drain_inv st
        (maxs.foldl (fun s m => (rohc_feedback_get s m).2.2) st2) k := by
  induction maxs with
  | nil =>
    intro st2 h
    simpa using h
  | cons m ms ih =>
    intro st2 h
    obtain ⟨k, hk⟩ := h
    exact ih _ (drain_inv_step st st2 k m hf hk)

/-- The unlock loop run with enough fuel on a ring whose locked slots form
a cyclic run from the start position restores the all-unlocked base ring. -/
theorem rohc_feedback_unlock_loop_clears :
    ∀ (k : Nat) (base : List rohc_feedback_slot) (i fuel : Nat)
      (slots : List rohc_feedback_slot),
      (∀ j, j < base.length → (base.getD j default).is_locked = false) →
      i < base.length → k ≤ fuel → k ≤ base.length →
      slots.length = base.length →
      drain_pointwise base slots i k →
      rohc_feedback_unlock_loop fuel i slots = base := by
  intro k
  induction k with
  | zero =>
    intro base i fuel slots hbase hi _ _ hslen hpt
    have hseq : slots = base := by
      refine List.ext_getElem hslen (fun j h1 h2 => ?_)
      have := hpt.2 j h2 (inCycRun_zero _ _ _)
      rwa [List.getD_eq_getElem _ _ h1, List.getD_eq_getElem _ _ h2] at this
    rw [hseq]
    cases fuel with
    | zero => rfl
    | succ f =>
      unfold rohc_feedback_unlock_loop
      rw [if_neg]
      rw [hbase i hi]
      simp
  | succ k ih =>
    intro base i fuel slots hbase hi hkf hkN hslen hpt
    cases fuel with
    | zero => omega
    | succ f =>
      have hself : inCycRun base.length i (k + 1) i :=
        ⟨0, by omega, by simp [Nat.mod_eq_of_lt hi]⟩
      have hlock : (slots.getD i default).is_locked = true := by
        rw [hpt.1 i hi hself]
        simp [slotLock]
      unfold rohc_feedback_unlock_loop
      rw [if_pos hlock, hslen]
      refine ih base ((i + 1) % base.length) f _ hbase
        (Nat.mod_lt _ (by omega)) (by omega) (by omega) (by simpa using hslen)
        ⟨?_, ?_⟩
      · intro j hj hrun
        have hji : j ≠ i := by
          intro he
          subst he
          rcases hrun with ⟨j', hj', he⟩
          rw [Nat.mod_add_mod] at he
          have he2 : (j + (1 + j')) % base.length = j := by
            have ha : j + (1 + j') = j + 1 + j' := by omega
            rw [ha, ← he]
          exact cyc_no_wrap j (1 + j') base.length hi he2 (by omega) (by omega)
        rw [slot_getD_set_ne _ _ _ _ (fun he => hji he.symm)]
        rw [hpt.1 j hj ((inCycRun_shift _ _ _ _ hji hi).mpr hrun)]
      · intro j hj hrun
        by_cases hji : j = i
        · subst hji
          rw [slot_getD_set_eq _ _ _ (by omega)]
          rw [hpt.1 j hj hself]
          exact slot_unlock_lock _ (hbase j hj)
        · rw [slot_getD_set_ne _ _ _ _ (fun he => hji he.symm)]
          refine hpt.2 j hj ?_
          intro hr
          exact hrun ((inCycRun_shift _ _ _ _ hji hi).mp hr)

/-- C5: starting from any feedback-ring state with no locked slot (so
feedbacks_first_unlocked coincides with feedbacks_first, as forced by the
ring invariant that the slots between them are exactly the locked ones),
any sequence of rohc_feedback_get calls followed by one
rohc_feedback_unlock call restores the ring completely - in particular
rohc_feedback_avail_bytes is restored, every slot locked by the drain is
unlocked again, no slot is removed, and feedbacks_first_unlocked is reset
to feedbacks_first. -/
theorem rohc_feedback_unlock_restores (st : rohc_feedback_ring)
    (maxs : List Nat)
    (hf : st.feedbacks_first < st.feedbacks.length)
    (hfu : st.feedbacks_first_unlocked = st.feedbacks_first)
    (hnolock : ∀ j, j < st.feedbacks.length →
      (st.feedbacks.getD j default).is_locked = false) :
    rohc_feedback_unlock
      (maxs.foldl (fun s m => (rohc_feedback_get s m).2.2) st) = st ∧
    rohc_feedback_avail_bytes
      (rohc_feedback_unlock
        (maxs.foldl (fun s m => (rohc_feedback_get s m).2.2) st)) =
      rohc_feedback_avail_bytes st := by
  have hbase0 : drain_inv st st 0 := by
    refine ⟨rfl, rfl, rfl, by omega, by omega, Or.inr ?_, ?_, ?_⟩
    · rw [hfu, Nat.add_zero, Nat.mod_eq_of_lt hf]
    · intro i hi hrun
      exact absurd hrun (inCycRun_zero _ _ _)
    · intro i _ _
      rfl
  obtain ⟨k, hlen, hfirst, hnext, hfu2, hkN, hside, hpt⟩ :=
    drain_inv_foldl st maxs hf st ⟨0, hbase0⟩
  set st2 := maxs.foldl (fun s m => (rohc_feedback_get s m).2.2) st with hst2
  have hclear : rohc_feedback_unlock_loop st2.feedbacks.length
      st2.feedbacks_first st2.feedbacks = st.feedbacks := by
    rw [hlen, hfirst]
    exact rohc_feedback_unlock_loop_clears k st.feedbacks st.feedbacks_first
      st.feedbacks.length st2.feedbacks hnolock hf hkN hkN hlen hpt
  have hmain : rohc_feedback_unlock st2 = st := by
    unfold rohc_feedback_unlock
    ext1
    · exact hclear
    · exact hfirst
    · rw [hfirst, hfu]
    · exact hnext
  exact ⟨hmain, by rw [hmain]⟩

/-- Concrete all-unlocked ring used by the witness of claim C5. -/
def ringC5 : rohc_feedback_ring :=
  { feedbacks := [⟨3, false, [1, 2, 3]⟩, ⟨9, false, [4, 4, 4, 4, 4, 4, 4, 4, 4]⟩,
                  default],
    feedbacks_first := 0, feedbacks_first_unlocked := 0, feedbacks_next := 2 }

/-- Witness for C5: draining a concrete ring twice and unlocking restores
it. -/
theorem rohc_feedback_unlock_restores_witness :
    rohc_feedback_unlock
      (([20, 20] : List Nat).foldl
        (fun s m => (rohc_feedback_get s m).2.2) ringC5) = ringC5 ∧
    rohc_feedback_avail_bytes
      (rohc_feedback_unlock
        (([20, 20] : List Nat).foldl
          (fun s m => (rohc_feedback_get s m).2.2) ringC5)) =
      rohc_feedback_avail_bytes ringC5 :=
  rohc_feedback_unlock_restores ringC5 [20, 20] (by decide) (by decide)
    (by decide)

/-- Embedding of the feedback drain loop of rohc_compress3 (rohc_comp.c,
lines 962-972): repeatedly call rohc_feedback_get with the full output
capacity (the loop never updates rohc_packet_len, so the per-call bound is
rohc_packet_max_len each time), accumulate the emitted sizes, and continue
while a feedback was emitted and the accumulated size is at most 500.
The fuel argument is instantiated with 502: the C do-while terminates
within that many iterations because every continuing iteration adds at
least one byte and continues only while the total is at most 500. -/
def rohc_compress3_feedbacks_loop :
    Nat → rohc_feedback_ring → Nat → Nat → List Nat →
    Nat × List Nat × rohc_feedback_ring
  | 0, st, _, feedbacks_size, acc => (feedbacks_size, acc, st)
  | fuel + 1, st, maxlen, feedbacks_size, acc =>
    if 0 < (rohc_feedback_get st maxlen).1 then
      if feedbacks_size + (rohc_feedback_get st maxlen).1.toNat ≤ 500 then
        rohc_compress3_feedbacks_loop fuel (rohc_feedback_get st maxlen).2.2
          maxlen (feedbacks_size + (rohc_feedback_get st maxlen).1.toNat)
          (acc ++ (rohc_feedback_get st maxlen).2.1)
      else
        (feedbacks_size + (rohc_feedback_get st maxlen).1.toNat,
         acc ++ (rohc_feedback_get st maxlen).2.1,
         (rohc_feedback_get st maxlen).2.2)
    else
      (feedbacks_size, acc, (rohc_feedback_get st maxlen).2.2)

/-- The feedback-prepending step of rohc_compress3: total emitted feedback
size, emitted bytes and resulting ring. -/
def rohc_compress3_feedbacks (st : rohc_feedback_ring) (maxlen : Nat) :
    Nat × List Nat × rohc_feedback_ring :=
  rohc_compress3_feedbacks_loop 502 st maxlen 0 []

/-- Largest feedback length stored in any slot of the ring. -/
def max_feedback_slot_len (st : rohc_feedback_ring) : Nat :=
  (st.feedbacks.map (fun s => s.length)).foldr max 0

/-- Every member of a list is at most its foldr max. -/
theorem mem_le_foldr_max (l : List Nat) (x : Nat) (hx : x ∈ l) :
    x ≤ l.foldr max 0 := by
  induction l with
  | nil => cases hx
  | cons a as ih =>
    rcases List.mem_cons.mp hx with h | h
    · subst h
      exact Nat.le_max_left _ _
    · exact le_trans (ih h) (Nat.le_max_right _ _)

/-- The length of any slot is at most max_feedback_slot_len. -/
theorem slot_len_le_max (st : rohc_feedback_ring) (i : Nat) :
    (slotAt st i).length ≤ max_feedback_slot_len st := by
  by_cases hi : i < st.feedbacks.length
  · refine mem_le_foldr_max _ _ ?_
    refine List.mem_map.mpr ⟨st.feedbacks.getD i default, ?_, rfl⟩
    rw [List.getD_eq_getElem _ _ hi]
    exact List.getElem_mem _
  · have : slotAt st i = default := by
      unfold slotAt
      exact List.getD_eq_default _ _ (Nat.le_of_not_lt hi)
    rw [this]
    exact Nat.zero_le _

/-- One rohc_feedback_get call emits at most 2 header bytes plus the bytes
of one slot, and does not change any slot length. -/
theorem rohc_feedback_get_bound (st : rohc_feedback_ring) (m : Nat) :
    (rohc_feedback_get st m).1.toNat ≤ 2 + max_feedback_slot_len st ∧
    max_feedback_slot_len (rohc_feedback_get st m).2.2 =
      max_feedback_slot_len st := by
  have hlen := slot_len_le_max st st.feedbacks_first_unlocked
  rcases rohc_feedback_get_state st m with hst | hst
  · constructor
    · unfold rohc_feedback_get
      split_ifs <;> (try simp) <;> split_ifs <;> simp <;> omega
    · rw [hst]
  · constructor
    · unfold rohc_feedback_get
      split_ifs <;> (try simp) <;> split_ifs <;> simp <;> omega
    · rw [hst]
      unfold max_feedback_slot_len
      congr 1
      by_cases hi : st.feedbacks_first_unlocked < st.feedbacks.length
      · refine List.ext_getElem (by simp) (fun j h1 h2 => ?_)
        simp only [List.getElem_map]
        by_cases hj : j = st.feedbacks_first_unlocked
        · subst hj
          rw [List.getElem_set_self]
          simp only [slotLock, slotAt]
          rw [List.getD_eq_getElem _ _ (by simpa using h2)]
        · rw [List.getElem_set_ne (fun he => hj he.symm)]
      · rw [List.set_eq_of_length_le (Nat.le_of_not_lt hi)]

/-- The drain loop total stays at most 502 plus the largest queued feedback
length, for any fuel, starting total at most 500, and ring state. -/
theorem rohc_compress3_feedbacks_loop_le :
    ∀ (fuel : Nat) (st : rohc_feedback_ring) (maxlen total : Nat)
      (acc : List Nat), total ≤ 500 →
      (rohc_compress3_feedbacks_loop fuel st maxlen total acc).1 ≤
        502 + max_feedback_slot_len st := by
  intro fuel
  induction fuel with
  | zero =>
    intro st maxlen total acc htot
    simpa [rohc_compress3_feedbacks_loop] using by omega
  | succ f ih =>
    intro st maxlen total acc htot
    obtain ⟨hb, hpres⟩ := rohc_feedback_get_bound st maxlen
    unfold rohc_compress3_feedbacks_loop
    split_ifs with h1 h2
    · have := ih (rohc_feedback_get st maxlen).2.2 maxlen
        (total + (rohc_feedback_get st maxlen).1.toNat)
        (acc ++ (rohc_feedback_get st maxlen).2.1) h2
      rw [hpres] at this
      exact this
    · simpa using by omega
    · simpa using by omega

/-- C6 (amended): across one rohc_compress3 call the total size of the
prepended feedback data is at most 502 plus the largest queued feedback
length; the 500-byte budget is only a stopping threshold checked after a
feedback has already been emitted, not a bound. -/
theorem rohc_compress3_feedbacks_bounded (st : rohc_feedback_ring)
    (maxlen : Nat) :
    (rohc_compress3_feedbacks st maxlen).1 ≤
      502 + max_feedback_slot_len st := by
  unfold rohc_compress3_feedbacks
  exact rohc_compress3_feedbacks_loop_le 502 st maxlen 0 [] (by omega)

/-- Ring holding one queued 600-byte feedback, used to refute the claimed
500-byte budget of claim C6. -/
def ringC6 : rohc_feedback_ring :=
  { feedbacks := [⟨600, false, List.replicate 600 7⟩, default],
    feedbacks_first := 0, feedbacks_first_unlocked := 0, feedbacks_next := 1 }

/-- Witness for C6 (amended): the bound instantiated at a concrete ring.
The theorem has no explicit hypothesis; this instantiation also evaluates
both sides on the concrete input. -/
theorem rohc_compress3_feedbacks_bounded_witness :
    (rohc_compress3_feedbacks ringC6 10000).1 ≤
      502 + max_feedback_slot_len ringC6 :=
  rohc_compress3_feedbacks_bounded ringC6 10000

/-- Counterexample to C6 as stated: with a single queued 600-byte feedback
and ample output capacity, rohc_compress3 prepends 602 bytes of feedback
data (2-byte header plus 600 bytes), exceeding the claimed 500-byte
budget min(remaining capacity, 500) = 500. -/
theorem rohc_compress3_feedbacks_cex :
    (rohc_compress3_feedbacks ringC6 10000).1 = 602 ∧
    500 < (rohc_compress3_feedbacks ringC6 10000).1 := by
  constructor <;> decide

/-- Length in bytes of the FCS-32 CRC appended to a staged RRU. -/
def CRC_FCS32_LEN : Nat := 4

/-- Initial value of the FCS-32 CRC computation. -/
def CRC_INIT_FCS32 : Nat := 0xffffffff

/-- One bit step of the reflected CRC-32/IEEE computation. -/
def fcs32_shift (c : Nat) : Nat :=
  if c % 2 = 1 then (c / 2) ^^^ 0xedb88320 else c / 2

/-- One byte step of the reflected CRC-32/IEEE computation. -/
def crc_calc_fcs32_byte (crc b : Nat) : Nat :=
  (crc / 256) ^^^ fcs32_shift^[8] ((crc ^^^ b) % 256)

/-- Modelled from the spec: crc_calc_fcs32, the FCS-32 used for segment
reassembly, lives in the common CRC module which is not under src/; the
spec describes it as CRC-32/IEEE, modelled here as the standard reflected
bitwise algorithm over the byte list. -/
def crc_calc_fcs32 (buf : List Nat) (init : Nat) : Nat :=
  buf.foldl crc_calc_fcs32_byte init

/-- Byte image of the uint32 CRC value as memcpy lays it out on a
little-endian host. -/
def u32_bytes (v : Nat) : List Nat :=
  [v % 256, v / 256 % 256, v / 65536 % 256, v / 16777216 % 256]

/-- Return statuses of rohc_compress3 relevant to the segmentation path. -/
inductive rohc_comp_status where
  | ROHC_OK
  | ROHC_NEED_SEGMENT
  | ROHC_ERROR
  deriving DecidableEq, Repr

/-- Embedding of the output-assembly tail of rohc_compress3 (rohc_comp.c,
lines 1033-1185), entered after the profile encoder succeeded: given the
MRRU, the current staged RRU bytes, the feedback ring, the number of
feedback bytes already emitted into the output, the encoded ROHC header
bytes, the payload bytes and the output capacity, either report overflow
via segmentation (staging header, payload and FCS-32 as the new RRU and
unlocking the drained feedbacks), fail when the packet does not fit the
MRRU (also unlocking, via the error path), or succeed (removing the locked
feedbacks). Returns the status, the staged RRU bytes and the ring. -/
def rohc_compress3_finish (mrru : Nat) (rru : List Nat)
    (ring : rohc_feedback_ring) (feedbacks_size : Nat)
    (hdr payload : List Nat) (rohc_packet_max_len : Nat) :
    rohc_comp_status × List Nat × rohc_feedback_ring :=
  if feedbacks_size + hdr.length + payload.length > rohc_packet_max_len then
    if feedbacks_size + hdr.length + payload.length + CRC_FCS32_LEN > mrru then
      (rohc_comp_status.ROHC_ERROR, rru, rohc_feedback_unlock ring)
    else
      (rohc_comp_status.ROHC_NEED_SEGMENT,
       (hdr ++ payload) ++ u32_bytes (crc_calc_fcs32 (hdr ++ payload) CRC_INIT_FCS32),
       rohc_feedback_unlock ring)
  else
    (rohc_comp_status.ROHC_OK, rru, rohc_feedback_remove_locked ring)

/-- One-slot empty ring used by the C3 counterexample and witness. -/
def ringC3 : rohc_feedback_ring :=
  { feedbacks := [default], feedbacks_first := 0,
    feedbacks_first_unlocked := 0, feedbacks_next := 0 }

/-- Counterexample to C3 as stated: with 1 emitted feedback byte, a 1-byte
header, an empty payload, capacity 1 and MRRU 5, the overflow condition of
the claim holds (1 + 1 + 0 > 1) and header + payload + 4 = 5 is at most
MRRU, so the claim demands staging and ROHC_NEED_SEGMENT; the code instead
compares feedbacks + header + payload + 4 = 6 against the MRRU and fails
with an error. -/
theorem rohc_compress3_finish_cex :
    1 + 1 + 0 > 1 ∧ 1 + 0 + 4 ≤ 5 ∧
    (rohc_compress3_finish 5 [] ringC3 1 [253] [] 1).1 =
      rohc_comp_status.ROHC_ERROR := by
  refine ⟨by decide, by decide, ?_⟩
  decide

/-- C3 (amended): when the emitted feedbacks plus header plus payload
exceed the output capacity, the call stages exactly
header, payload, FCS-32(header plus payload) as the pending RRU and
returns ROHC_NEED_SEGMENT precisely when feedbacks + header + payload + 4
is at most MRRU (the code includes the already-emitted feedback bytes in
the MRRU comparison); the staged length is header + payload + 4 and is at
most MRRU; otherwise the call fails with ROHC_ERROR. -/
theorem rohc_compress3_finish_spec (mrru : Nat) (rru : List Nat)
    (ring : rohc_feedback_ring) (feedbacks_size : Nat)
    (hdr payload : List Nat) (maxlen : Nat)
    (hover : feedbacks_size + hdr.length + payload.length > maxlen) :
    (feedbacks_size + hdr.length + payload.length + 4 ≤ mrru →
      (rohc_compress3_finish mrru rru ring feedbacks_size hdr payload maxlen).1 =
        rohc_comp_status.ROHC_NEED_SEGMENT ∧
      (rohc_compress3_finish mrru rru ring feedbacks_size hdr payload maxlen).2.1 =
        (hdr ++ payload) ++
          u32_bytes (crc_calc_fcs32 (hdr ++ payload) CRC_INIT_FCS32) ∧
      (rohc_compress3_finish mrru rru ring feedbacks_size hdr payload maxlen).2.1.length =
        hdr.length + payload.length + 4 ∧
      (rohc_compress3_finish mrru rru ring feedbacks_size hdr payload maxlen).2.1.length ≤
        mrru) ∧
    (feedbacks_size + hdr.length + payload.length + 4 > mrru →
      (rohc_compress3_finish mrru rru ring feedbacks_size hdr payload maxlen).1 =
        rohc_comp_status.ROHC_ERROR) := by
  unfold rohc_compress3_finish
  rw [if_pos hover]
  constructor
  · intro hfit
    rw [if_neg (by simp only [CRC_FCS32_LEN]; omega)]
    refine ⟨rfl, rfl, ?_, ?_⟩
    · simp [u32_bytes]
      omega
    · simp [u32_bytes]
      omega
  · intro hbig
    rw [if_pos (by simp only [CRC_FCS32_LEN]; omega)]

/-- Witness for C3 (amended): a packet that overflows a zero-capacity
buffer but fits the MRRU is staged with its FCS-32 and reported as
needing segmentation. -/
theorem rohc_compress3_finish_spec_witness :
    (rohc_compress3_finish 10 [] ringC3 0 [1] [2] 0).1 =
      rohc_comp_status.ROHC_NEED_SEGMENT ∧
    (rohc_compress3_finish 10 [] ringC3 0 [1] [2] 0).2.1 =
      (([1] : List Nat) ++ [2]) ++
        u32_bytes (crc_calc_fcs32 (([1] : List Nat) ++ [2]) CRC_INIT_FCS32) ∧
    (rohc_compress3_finish 10 [] ringC3 0 [1] [2] 0).2.1.length =
      ([1] : List Nat).length + ([2] : List Nat).length + 4 ∧
    (rohc_compress3_finish 10 [] ringC3 0 [1] [2] 0).2.1.length ≤ 10 :=
  (rohc_compress3_finish_spec 10 [] ringC3 0 [1] [2] 0 (by decide)).1 (by decide)

/-- Capacity of the RTP port list. The MAX_RTP_PORTS macro is declared in a
header that is not under src/; the spec fixes the list at 15 entries. -/
def MAX_RTP_PORTS : Nat := 15

/-- Shift loop of rohc_comp_add_rtp_port (rohc_comp.c, lines 2224-2227):
for i from MAX_RTP_PORTS - 2 down to idx + 1, ports[i] = ports[i - 1].
Structural countdown on i; the loop body reads the entry below the one it
writes, so descending evaluation reads only original values, as in C. -/
def rtp_ports_shift : List Nat → Nat → Nat → List Nat
  | ports, _, 0 => ports
  | ports, idx, i + 1 =>
    if idx < i + 1 then
      rtp_ports_shift (ports.set (i + 1) (ports.getD i 0)) idx i
    else
      ports

/-- Search-and-insert loop of rohc_comp_add_rtp_port (rohc_comp.c, lines
2198-2242), including the final table-full check: the fuel counts the
remaining indices, so fuel = MAX_RTP_PORTS - idx and fuel 0 is the loop
exit with idx = MAX_RTP_PORTS, which the C code reports as a full table. -/
def rohc_comp_add_rtp_port_loop : Nat → List Nat → Nat → Nat → Bool × List Nat
  | 0, ports, _, _ => (false, ports)
  | fuel + 1, ports, port, idx =>
    if ports.getD idx 0 = 0 then
      (true, ports.set idx port)
    else if ports.getD idx 0 = port then
      (false, ports)
    else if port < ports.getD idx 0 then
      (true, (rtp_ports_shift ports idx (MAX_RTP_PORTS - 2)).set idx port)
    else
      rohc_comp_add_rtp_port_loop fuel ports port (idx + 1)

/-- Embedding of rohc_comp_add_rtp_port (rohc_comp.c, lines 2177-2252):
add a UDP port to the sorted list of RTP ports. Returns the C result
together with the resulting list (unchanged on failure). The port is an
unsigned int, so the C check port <= 0 is modelled as port = 0. -/
def rohc_comp_add_rtp_port (ports : List Nat) (port : Nat) : Bool × List Nat :=
  if port = 0 ∨ port > 0xffff then
    (false, ports)
  else
    rohc_comp_add_rtp_port_loop MAX_RTP_PORTS ports port 0

/-- A 14-entry sorted RTP port list (one free slot left). -/
def rtpPortsC8 : List Nat :=
  [2, 4, 6, 8, 10, 12, 14, 16, 18, 20, 22, 24, 26, 28, 0]

/-- A full sorted RTP port list of 15 entries. -/
def rtpPortsC8full : List Nat :=
  [2, 4, 6, 8, 10, 12, 14, 16, 18, 20, 22, 24, 26, 28, 30]

/-- C8 is violated by the code (off-by-one in the shift loop, which stops
at index MAX_RTP_PORTS - 2 and never moves the last occupied entry):
inserting port 1 into a sorted 14-entry list succeeds but silently drops
the largest port 28, so the resulting list does not contain every
previously held port; and inserting port 1 into a full 15-entry list
returns success although the claim requires failure, again dropping
port 28. -/
theorem rohc_comp_add_rtp_port_bug :
    (rohc_comp_add_rtp_port rtpPortsC8 1).1 = true ∧
    (28 : Nat) ∈ rtpPortsC8 ∧
    (28 : Nat) ∉ (rohc_comp_add_rtp_port rtpPortsC8 1).2 ∧
    (rohc_comp_add_rtp_port rtpPortsC8 1).2 =
      [1, 2, 4, 6, 8, 10, 12, 14, 16, 18, 20, 22, 24, 26, 0] ∧
    (rohc_comp_add_rtp_port rtpPortsC8full 1).1 = true ∧
    (rohc_comp_add_rtp_port rtpPortsC8full 1).2 =
      [1, 2, 4, 6, 8, 10, 12, 14, 16, 18, 20, 22, 24, 26, 30] := by
  decide

/-- The five legacy default RTP ports that rohc_comp_new installs when the
deprecated API is enabled (rohc_comp.c, lines 417-433). -/
def default_rtp_ports : List Nat := [1234, 36780, 33238, 5020, 5002]

/-- Embedding of the RTP-port initialisation of rohc_comp_new
(rohc_comp.c, lines 369-373 and 417-433): the list is reset to zeros and,
when ROHC_ENABLE_DEPRECATED_API is enabled (which is the default: the
guard is taken when the macro is undefined or 1), the five legacy default
ports are added through rohc_comp_add_rtp_port; a failing add aborts the
construction (modelled as none). -/
def rohc_comp_new_rtp_ports (deprecated_api : Bool) : Option (List Nat) :=
  if deprecated_api then
    default_rtp_ports.foldlM
      (fun ps p =>
        if (rohc_comp_add_rtp_port ps p).1 then
          some (rohc_comp_add_rtp_port ps p).2
        else
          none)
      (List.replicate MAX_RTP_PORTS 0)
  else
    some (List.replicate MAX_RTP_PORTS 0)

/-- Counterexample to C9 as stated: under the default build (deprecated
API enabled) rohc_comp_new pre-installs the five legacy RTP ports, so the
port list is not all-zero after construction. -/
theorem rohc_comp_new_rtp_ports_cex :
    rohc_comp_new_rtp_ports true =
      some [1234, 5002, 5020, 33238, 36780, 0, 0, 0, 0, 0, 0, 0, 0, 0, 0] ∧
    rohc_comp_new_rtp_ports true ≠ some (List.replicate MAX_RTP_PORTS 0) := by
  decide

/-- C9 (amended): the RTP port list is empty after rohc_comp_new only when
the library is built with ROHC_ENABLE_DEPRECATED_API = 0; under the
default build the five legacy ports 1234, 5002, 5020, 33238, 36780 are
pre-installed in ascending order. -/
theorem rohc_comp_new_rtp_ports_spec :
    rohc_comp_new_rtp_ports false = some (List.replicate MAX_RTP_PORTS 0) ∧
    rohc_comp_new_rtp_ports true =
      some [1234, 5002, 5020, 33238, 36780, 0, 0, 0, 0, 0, 0, 0, 0, 0, 0] := by
  decide
